import Mathlib

/-!
# Bookmark API, category collaboration model: shallow embedding

A shallow embedding of the Flask bookmark service (models.py,
blueprints/categories/categories.py, blueprints/bookmarks/bookmarks.py,
blueprints/auth/auth.py). The database is modelled as lists of rows; each
HTTP handler becomes a pure function from a store and request arguments to
a result together with the store after commit. Roles are plain strings, as
in the `category_collaborators.role` column of the source.
-/

namespace BookmarkApi

/-- HTTP-level error outcomes used by the handlers
    (400 / 403 / 404 / 409 in the source). -/
inductive ApiError
  | badRequest
  | forbidden
  | notFound
  | conflict
  deriving DecidableEq, Repr

/-- A row of the `user` table (models.py, class User). -/
structure UserRec where
  id : Nat
  username : String
  email : String
  deriving DecidableEq, Repr

/-- A row of the `category` table (models.py, class Category):
    `user_id` is the denormalized owner column, `share_token` the
    nullable unique token. -/
structure CategoryRec where
  id : Nat
  name : String
  user_id : Nat
  is_public : Bool
  share_token : Option String
  deriving DecidableEq, Repr

/-- A row of the `bookmark` table (models.py, class Bookmark). -/
structure BookmarkRec where
  id : Nat
  url : String
  body : Option String
  user_id : Nat
  category_id : Option Nat
  deriving DecidableEq, Repr

/-- A row of the `category_collaborators` association table
    (models.py, table category_collaborators). -/
structure Membership where
  user_id : Nat
  category_id : Nat
  role : String
  deriving DecidableEq, Repr

/-- The persistent store: the four relations of the schema. -/
structure Store where
  users : List UserRec
  categories : List CategoryRec
  bookmarks : List BookmarkRec
  collaborators : List Membership
  deriving DecidableEq, Repr

/-- `User.query.get(uid)`. -/
def findUser (s : Store) (uid : Nat) : Option UserRec :=
  s.users.find? (fun u => u.id == uid)

/-- `User.query.filter_by(email=email).first()`. -/
def findUserByEmail (s : Store) (email : String) : Option UserRec :=
  s.users.find? (fun u => u.email == email)

/-- `Category.query.get(cid)`. -/
def findCategory (s : Store) (cid : Nat) : Option CategoryRec :=
  s.categories.find? (fun c => c.id == cid)

/-- Row selector for the (user, category) primary key of the
    association table. -/
def memberFor (uid cid : Nat) (m : Membership) : Bool :=
  m.user_id == uid && m.category_id == cid

/-- Role lookup in the association table: the select in
    `is_owner` / `list_collaborators` (categories.py). -/
def collabRole (s : Store) (uid cid : Nat) : Option String :=
  (s.collaborators.find? (memberFor uid cid)).map (fun m => m.role)

/-- `is_owner(user_id, category)` (categories.py, lines 12-22): the
    collaborator-table role equals the string owner. -/
def is_owner (s : Store) (uid cid : Nat) : Bool :=
  collabRole s uid cid == some "owner"

/-- `user in category.collaborators`: a membership row exists. -/
def isCollaborator (s : Store) (uid cid : Nat) : Bool :=
  (collabRole s uid cid).isSome

/-- `category.bookmarks`: bookmarks whose `category_id` is this category. -/
def bookmarksOf (s : Store) (cid : Nat) : List BookmarkRec :=
  s.bookmarks.filter (fun b => b.category_id == some cid)

/-- Per-row effect of the role UPDATE: change `role` on the row of the
    given (user, category) pair, leave every other row alone. -/
def roleUpd (uid cid : Nat) (role : String) (m : Membership) : Membership :=
  if memberFor uid cid m then { m with role := role } else m

/-- The UPDATE on `category_collaborators` setting `role` for one
    (user, category) pair (categories.py, e.g. lines 85-91, 326-332,
    549-560). -/
def setRole (s : Store) (uid cid : Nat) (role : String) : Store :=
  { s with collaborators := s.collaborators.map (roleUpd uid cid role) }

/-- Per-row effect of the owner-column assignment. -/
def ownUpd (cid uid : Nat) (c : CategoryRec) : CategoryRec :=
  if c.id == cid then { c with user_id := uid } else c

/-- `category.user_id = user_id` (categories.py line 546), committed. -/
def setCategoryOwner (s : Store) (cid uid : Nat) : Store :=
  { s with categories := s.categories.map (ownUpd cid uid) }

/-- `Category.generate_share_token` (models.py lines 97-99): only sets a
    fresh token when none is present. The fresh uuid4 value is passed in
    as `fresh`. -/
def generate_share_token_model (c : CategoryRec) (fresh : String) : CategoryRec :=
  match c.share_token with
  | some _ => c
  | none => { c with share_token := some fresh }

/-- Per-row effect of committing `generate_share_token` on category `cid`. -/
def genUpd (cid : Nat) (fresh : String) (c : CategoryRec) : CategoryRec :=
  if c.id == cid then generate_share_token_model c fresh else c

/-- Commit of a `generate_share_token` call on the category row `cid`. -/
def applyGenerateToken (s : Store) (cid : Nat) (fresh : String) : Store :=
  { s with categories := s.categories.map (genUpd cid fresh) }

/-- The duplicate-name query of `create_category` / `update_category`
    (categories.py lines 65-69): a category with this name on which the
    user holds an owner membership row. -/
def ownsCategoryNamed (s : Store) (uid : Nat) (name : String) : Bool :=
  s.categories.any (fun c => c.name == name &&
    s.collaborators.any (fun m =>
      m.user_id == uid && m.category_id == c.id && m.role == "owner"))

/-- `create_category` (categories.py lines 24-94): name required; 409 if
    the caller already owns a category of this name; otherwise insert the
    category with `user_id = caller`, append the caller as collaborator
    (default role editor) and update that row to role owner.
    `new_id` stands for the id the database assigns at flush. -/
def create_category (s : Store) (current_user_id : Nat) (name : String)
    (is_public : Bool) (new_id : Nat) : Except ApiError Nat × Store :=
  if name = "" then (.error .badRequest, s)
  else if ownsCategoryNamed s current_user_id name then (.error .conflict, s)
  else
    let s1 : Store :=
      { s with
        categories := s.categories ++
          [{ id := new_id, name := name, user_id := current_user_id,
             is_public := is_public, share_token := none }],
        collaborators := s.collaborators ++
          [{ user_id := current_user_id, category_id := new_id, role := "editor" }] }
    let s2 := setRole s1 current_user_id new_id "owner"
    (.ok new_id, s2)

/-- `add_collaborator` (categories.py lines 253-352). `fresh` stands for
    the uuid4 value used if a share token has to be generated. -/
def add_collaborator (s : Store) (current_user_id cid : Nat)
    (email : Option String) (role : String) (fresh : String) :
    Except ApiError Unit × Store :=
  match findCategory s cid with
  | none => (.error .notFound, s)
  | some category =>
    if ¬ is_owner s current_user_id cid then (.error .forbidden, s)
    else match email with
    | none => (.error .badRequest, s)
    | some em =>
      if em = "" then (.error .badRequest, s)
      else if ¬ (role = "editor" ∨ role = "reader") then (.error .badRequest, s)
      else match findUserByEmail s em with
      | none => (.error .notFound, s)
      | some collaborator =>
        if isCollaborator s collaborator.id cid then (.error .conflict, s)
        else
          let s1 : Store :=
            { s with collaborators := s.collaborators ++
                [{ user_id := collaborator.id, category_id := cid, role := "editor" }] }
          let s2 := setRole s1 collaborator.id cid role
          let s3 := if category.share_token = none then applyGenerateToken s2 cid fresh
                    else s2
          (.ok (), s3)

/-- `remove_collaborator` (categories.py lines 354-407). -/
def remove_collaborator (s : Store) (current_user_id cid target : Nat) :
    Except ApiError Unit × Store :=
  match findCategory s cid with
  | none => (.error .notFound, s)
  | some _ =>
    if ¬ is_owner s current_user_id cid then (.error .forbidden, s)
    else match findUser s target with
    | none => (.error .notFound, s)
    | some _ =>
      if ¬ isCollaborator s target cid then (.error .notFound, s)
      else if is_owner s target cid then (.error .forbidden, s)
      else
        (.ok (), { s with collaborators := s.collaborators.filter (fun m =>
            ¬ (m.user_id == target && m.category_id == cid)) })

/-- `update_collaborator_role` (categories.py lines 480-565): when the new
    role is owner and the target is someone else, also move the `user_id`
    owner column and demote the acting owner to editor; in every non-error
    case set the target's membership role. -/
def update_collaborator_role (s : Store) (current_user_id cid target : Nat)
    (new_role : String) : Except ApiError Unit × Store :=
  match findCategory s cid with
  | none => (.error .notFound, s)
  | some _ =>
    if ¬ is_owner s current_user_id cid then (.error .forbidden, s)
    else match findUser s target with
    | none => (.error .notFound, s)
    | some _ =>
      if ¬ isCollaborator s target cid then (.error .notFound, s)
      else if ¬ (new_role = "owner" ∨ new_role = "editor") then (.error .badRequest, s)
      else
        let s1 :=
          if new_role = "owner" ∧ target ≠ current_user_id then
            setRole (setCategoryOwner s cid target) current_user_id cid "editor"
          else s
        (.ok (), setRole s1 target cid new_role)

/-- The `/share` POST handler `generate_share_token` (categories.py lines
    567-614): owner only; calls `Category.generate_share_token` and
    returns the resulting token. -/
def generate_share_token_route (s : Store) (current_user_id cid : Nat)
    (fresh : String) : Except ApiError (Option String) × Store :=
  match findCategory s cid with
  | none => (.error .notFound, s)
  | some category =>
    if ¬ is_owner s current_user_id cid then (.error .forbidden, s)
    else
      (.ok (generate_share_token_model category fresh).share_token,
       applyGenerateToken s cid fresh)

/-- The read-only payload returned for a shared or public category. -/
structure CategoryView where
  id : Nat
  name : String
  is_public : Bool
  bookmarks : List BookmarkRec
  deriving DecidableEq, Repr

/-- `get_shared_category` (categories.py lines 652-716): no authentication;
    look the category up by its share token and return it with its
    bookmarks. Returns the store to make explicit that it writes nothing. -/
def get_shared_category (s : Store) (share_token : String) :
    Except ApiError CategoryView × Store :=
  match s.categories.find? (fun c => c.share_token == some share_token) with
  | none => (.error .notFound, s)
  | some category =>
    (.ok { id := category.id, name := category.name,
           is_public := category.is_public,
           bookmarks := bookmarksOf s category.id }, s)

/-- `get_public_category` (categories.py lines 789-858): no authentication
    decorator, so the identity `uid` (None for an anonymous caller) is
    never consulted; 404 unless the category exists and `is_public`. -/
def get_public_category (s : Store) (_uid : Option Nat) (cid : Nat) :
    Except ApiError CategoryView :=
  match s.categories.find? (fun c => c.id == cid && c.is_public) with
  | none => .error .notFound
  | some category =>
    .ok { id := category.id, name := category.name,
          is_public := category.is_public,
          bookmarks := bookmarksOf s category.id }

/-- `create_bookmark` (bookmarks.py lines 8-81): url required; when a
    category id is given, require a collaborator membership (any role) or
    that the category is public, else 403. -/
def create_bookmark (s : Store) (current_user_id : Nat) (url : String)
    (body : Option String) (category_id : Option Nat) (new_id : Nat) :
    Except ApiError Nat × Store :=
  if url = "" then (.error .badRequest, s)
  else
    let accessible : Bool :=
      match category_id with
      | none => true
      | some cid =>
        (s.categories.any (fun c => c.id == cid)
          && isCollaborator s current_user_id cid)
        || s.categories.any (fun c => c.id == cid && c.is_public)
    if ¬ accessible then (.error .forbidden, s)
    else
      (.ok new_id,
       { s with bookmarks := s.bookmarks ++
          [{ id := new_id, url := url, body := body,
             user_id := current_user_id, category_id := category_id }] })

/-- `get_bookmark` (bookmarks.py lines 134-169): filtered by
    `user_id=current_user_id`, so only the creator can read it. -/
def get_bookmark (s : Store) (current_user_id bid : Nat) :
    Except ApiError BookmarkRec :=
  match s.bookmarks.find? (fun b => b.user_id == current_user_id && b.id == bid) with
  | none => .error .notFound
  | some b => .ok b

/-- `update_bookmark` (bookmarks.py lines 172-243): the query filters by
    `user_id=current_user_id`; a non-creator gets 403. Moving the bookmark
    to a new category requires membership or a public category. -/
def update_bookmark (s : Store) (current_user_id bid : Nat)
    (url : Option String) (body : Option String)
    (category_id : Option (Option Nat)) : Except ApiError Unit × Store :=
  match s.bookmarks.find? (fun b => b.id == bid && b.user_id == current_user_id) with
  | none => (.error .forbidden, s)
  | some bookmark =>
    let newUrl := url.getD bookmark.url
    let newBody := match body with | some v => some v | none => bookmark.body
    match category_id with
    | none =>
      (.ok (), { s with bookmarks := s.bookmarks.map (fun b =>
          if b.id == bid && b.user_id == current_user_id then
            { b with url := newUrl, body := newBody } else b) })
    | some none =>
      (.ok (), { s with bookmarks := s.bookmarks.map (fun b =>
          if b.id == bid && b.user_id == current_user_id then
            { b with url := newUrl, body := newBody, category_id := none } else b) })
    | some (some newCid) =>
      let accessible : Bool :=
        (s.categories.any (fun c => c.id == newCid)
          && isCollaborator s current_user_id newCid)
        || s.categories.any (fun c => c.id == newCid && c.is_public)
      if ¬ accessible then (.error .forbidden, s)
      else
        (.ok (), { s with bookmarks := s.bookmarks.map (fun b =>
            if b.id == bid && b.user_id == current_user_id then
              { b with url := newUrl, body := newBody, category_id := some newCid }
            else b) })

/-- `delete_bookmark` (bookmarks.py lines 246-275): filtered by
    `user_id=current_user_id`; only the creator can delete. -/
def delete_bookmark (s : Store) (current_user_id bid : Nat) :
    Except ApiError Unit × Store :=
  match s.bookmarks.find? (fun b => b.user_id == current_user_id && b.id == bid) with
  | none => (.error .notFound, s)
  | some _ =>
    (.ok (), { s with bookmarks := s.bookmarks.filter (fun b =>
        ¬ (b.user_id == current_user_id && b.id == bid)) })

/-- The message `forgot_password` always answers with on a valid request
    (auth.py line 338). -/
def forgotPasswordMessage : String :=
  "If an account with that email exists, a password reset link has been sent."

/-- `forgot_password` (auth.py lines 302-338): 400 when the email field is
    missing, otherwise 200 with the fixed message whether or not a user
    with that email exists; the only effect of a match is the reset email,
    returned here as the list of recipient addresses. -/
def forgot_password (s : Store) (email : Option String) :
    (Nat × String) × List String :=
  match email with
  | none => ((400, "Email is required"), [])
  | some em =>
    if em = "" then ((400, "Email is required"), [])
    else
      match findUserByEmail s em with
      | some u => ((200, forgotPasswordMessage), [u.email])
      | none => ((200, forgotPasswordMessage), [])

/-! ## Ownership invariants -/

/-- The membership rows of category `cid` carrying role owner. -/
def ownerRows (s : Store) (cid : Nat) : List Membership :=
  s.collaborators.filter (fun m => m.category_id == cid && m.role == "owner")

/-- The spec's ownership invariant, literally: every category has exactly
    one owner membership row, and that row's user is the category's
    `user_id` column. -/
def ownerUnique (s : Store) : Bool :=
  s.categories.all (fun c =>
    (ownerRows s c.id).length == 1 &&
    (ownerRows s c.id).all (fun m => m.user_id == c.user_id))

/-- Every owner membership row agrees with the `user_id` column of its
    category (the direction of the invariant the code does maintain). -/
abbrev ownerRowsMatch (s : Store) : Prop :=
  ∀ c ∈ s.categories, ∀ m ∈ s.collaborators,
    m.category_id = c.id → m.role = "owner" → m.user_id = c.user_id

/-- The (user, category) keys of the association table; the database
    declares them as the composite primary key. -/
def collabPairs (s : Store) : List (Nat × Nat) :=
  s.collaborators.map (fun m => (m.user_id, m.category_id))

/-- Store well-formedness: primary-key uniqueness of memberships plus
    agreement of owner rows with the owner column. -/
abbrev StoreWF (s : Store) : Prop :=
  (collabPairs s).Nodup ∧ ownerRowsMatch s

/-! ## Concrete stores used by witnesses and counterexamples -/

/-- Three registered users. -/
def exStore0 : Store :=
  { users := [{ id := 1, username := "alice", email := "alice@example.com" },
              { id := 2, username := "bob", email := "bob@example.com" },
              { id := 3, username := "carol", email := "carol@example.com" }],
    categories := [], bookmarks := [], collaborators := [] }

/-- Alice has created category 7, "research". -/
def exStore1 : Store := (create_category exStore0 1 "research" false 7).2

/-- Alice has added Bob as an editor on category 7; this also generated
    the share token. -/
def exStore2 : Store :=
  (add_collaborator exStore1 1 7 (some "bob@example.com") "editor" "tok-1").2

/-- Alice has created bookmark 4 inside category 7. -/
def exStore3 : Store :=
  (create_bookmark exStore2 1 "https://proofs.example" none (some 7) 4).2

/-! ## General helper lemmas -/

/-- `find?` commutes with a map that does not change the predicate. -/
theorem find?_map_pred_preserved {α : Type} (f : α → α) (p : α → Bool)
    (hf : ∀ a, p (f a) = p a) (l : List α) :
    (l.map f).find? p = (l.find? p).map f := by
  induction l with
  | nil => rfl
  | cons a t ih =>
    simp only [List.map_cons, List.find?_cons]
    rw [hf]
    cases h : p a <;> simp [ih]

/-- Mapping a function that fixes every element of a list is the
    identity. -/
theorem map_eq_self_of_fix {α : Type} (f : α → α) (l : List α)
    (h : ∀ a ∈ l, f a = a) : l.map f = l := by
  induction l with
  | nil => rfl
  | cons a t ih =>
    simp only [List.map_cons]
    rw [h a (by simp), ih (fun x hx => h x (by simp [hx]))]

/-- A duplicate-free list whose elements are all equal has at most one
    element. -/
theorem length_le_one_of_nodup_const {α : Type} (l : List α) (hn : l.Nodup)
    (a : α) (h : ∀ x ∈ l, x = a) : l.length ≤ 1 := by
  match l with
  | [] => simp
  | [x] => simp
  | x :: y :: t =>
    exfalso
    have hx := h x (by simp)
    have hy := h y (by simp)
    rw [List.nodup_cons] at hn
    exact hn.1 (by rw [hx, hy]; simp)

/-! ## Facts about the row-update helpers -/

theorem roleUpd_user (uid cid : Nat) (r : String) (m : Membership) :
    (roleUpd uid cid r m).user_id = m.user_id := by
  unfold roleUpd; split <;> rfl

theorem roleUpd_cat (uid cid : Nat) (r : String) (m : Membership) :
    (roleUpd uid cid r m).category_id = m.category_id := by
  unfold roleUpd; split <;> rfl

theorem memberFor_roleUpd (u c uid cid : Nat) (r : String) (m : Membership) :
    memberFor u c (roleUpd uid cid r m) = memberFor u c m := by
  unfold memberFor
  rw [roleUpd_user, roleUpd_cat]

theorem roleUpd_of_match (uid cid : Nat) (r : String) (m : Membership)
    (h1 : m.user_id = uid) (h2 : m.category_id = cid) :
    roleUpd uid cid r m = { m with role := r } := by
  unfold roleUpd memberFor
  simp [h1, h2]

theorem roleUpd_of_miss (uid cid : Nat) (r : String) (m : Membership)
    (h : ¬ (m.user_id = uid ∧ m.category_id = cid)) :
    roleUpd uid cid r m = m := by
  unfold roleUpd memberFor
  rcases Decidable.not_and_iff_or_not.mp h with h' | h' <;> simp [h']

theorem ownUpd_id (cid uid : Nat) (c : CategoryRec) :
    (ownUpd cid uid c).id = c.id := by
  unfold ownUpd; split <;> rfl

theorem genUpd_id (cid : Nat) (fresh : String) (c : CategoryRec) :
    (genUpd cid fresh c).id = c.id := by
  unfold genUpd generate_share_token_model
  split <;> (try split) <;> rfl

theorem genUpd_user (cid : Nat) (fresh : String) (c : CategoryRec) :
    (genUpd cid fresh c).user_id = c.user_id := by
  unfold genUpd generate_share_token_model
  split <;> (try split) <;> rfl

/-- `collabRole` after a role UPDATE, expressed through the untouched
    store. -/
theorem collabRole_setRole (s : Store) (uid cid u c : Nat) (r : String) :
    collabRole (setRole s uid cid r) u c =
      (s.collaborators.find? (memberFor u c)).map
        (fun m => (roleUpd uid cid r m).role) := by
  unfold collabRole setRole
  rw [find?_map_pred_preserved (roleUpd uid cid r) (memberFor u c)
        (memberFor_roleUpd u c uid cid r)]
  cases s.collaborators.find? (memberFor u c) <;> rfl

/-- An owner according to `is_owner` has an owner membership row. -/
theorem is_owner_row (s : Store) (u cid : Nat) (h : is_owner s u cid = true) :
    ∃ m ∈ s.collaborators,
      m.user_id = u ∧ m.category_id = cid ∧ m.role = "owner" ∧
      s.collaborators.find? (memberFor u cid) = some m := by
  unfold is_owner at h
  have hrole : collabRole s u cid = some "owner" := eq_of_beq h
  unfold collabRole at hrole
  rcases Option.map_eq_some'.mp hrole with ⟨m, hfind, hmr⟩
  have hmem := List.mem_of_find?_eq_some hfind
  have hp := List.find?_some hfind
  simp only [memberFor, Bool.and_eq_true, beq_iff_eq] at hp
  exact ⟨m, hmem, hp.1, hp.2, hmr, hfind⟩

/-- Role updates do not move the association table's primary keys. -/
theorem collabPairs_setRole (s : Store) (u c : Nat) (r : String) :
    collabPairs (setRole s u c r) = collabPairs s := by
  unfold collabPairs setRole
  simp only [List.map_map]
  apply List.map_congr_left
  intro m _
  simp [Function.comp, roleUpd_user, roleUpd_cat]

theorem ownUpd_of_match (cid uid : Nat) (c : CategoryRec) (h : c.id = cid) :
    ownUpd cid uid c = { c with user_id := uid } := by
  unfold ownUpd; simp [h]

theorem ownUpd_of_miss (cid uid : Nat) (c : CategoryRec) (h : ¬ c.id = cid) :
    ownUpd cid uid c = c := by
  unfold ownUpd; simp [h]

/-- A membership row for the pair makes `isCollaborator` true. -/
theorem isCollaborator_of_row (s : Store) (u cid : Nat) (m : Membership)
    (hm : m ∈ s.collaborators) (h1 : m.user_id = u) (h2 : m.category_id = cid) :
    isCollaborator s u cid = true := by
  unfold isCollaborator collabRole
  cases hfind : s.collaborators.find? (memberFor u cid) with
  | some m' => simp
  | none =>
    rw [List.find?_eq_none] at hfind
    exact absurd (by unfold memberFor; simp [h1, h2]) (hfind m hm)

/-- If `isCollaborator` is false, no membership row for the pair
    exists. -/
theorem not_collaborator_no_row (s : Store) (u cid : Nat)
    (h : ¬ isCollaborator s u cid = true) :
    ∀ m ∈ s.collaborators, ¬ (m.user_id = u ∧ m.category_id = cid) := by
  intro m hm hand
  exact h (isCollaborator_of_row s u cid m hm hand.1 hand.2)

/-- Committing `generate_share_token` touches only the token column, so
    it preserves the ownership invariant. -/
theorem ownerRowsMatch_applyGenerateToken (s : Store) (cid : Nat) (fresh : String)
    (h : ownerRowsMatch s) : ownerRowsMatch (applyGenerateToken s cid fresh) := by
  intro c hc m hm hcat hrole
  replace hc : c ∈ s.categories.map (genUpd cid fresh) := hc
  replace hm : m ∈ s.collaborators := hm
  rw [List.mem_map] at hc
  obtain ⟨c0, hc0, rfl⟩ := hc
  rw [genUpd_id] at hcat
  rw [genUpd_user]
  exact h c0 hc0 m hm hcat hrole

/-- Under well-formedness, each category has at most one owner row and
    every owner row names the category's `user_id`. -/
theorem StoreWF_atMostOne (s : Store) (h : StoreWF s) :
    ∀ c ∈ s.categories, (ownerRows s c.id).length ≤ 1 ∧
      ∀ m ∈ ownerRows s c.id, m.user_id = c.user_id := by
  intro c hc
  obtain ⟨hnd, hmatch⟩ := h
  have hsub : List.Sublist (ownerRows s c.id) s.collaborators :=
    List.filter_sublist _
  have hrows : ∀ m ∈ ownerRows s c.id,
      m.user_id = c.user_id ∧ m.category_id = c.id := by
    intro m hm
    rw [ownerRows, List.mem_filter] at hm
    obtain ⟨hmem, hp⟩ := hm
    simp only [Bool.and_eq_true, beq_iff_eq] at hp
    exact ⟨hmatch c hc m hmem hp.1 hp.2, hp.1⟩
  refine ⟨?_, fun m hm => (hrows m hm).1⟩
  have hnd2 : ((ownerRows s c.id).map
      (fun m => (m.user_id, m.category_id))).Nodup :=
    hnd.sublist (hsub.map _)
  have hlen : ((ownerRows s c.id).map
      (fun m => (m.user_id, m.category_id))).length ≤ 1 := by
    apply length_le_one_of_nodup_const _ hnd2 (c.user_id, c.id)
    intro x hx
    rw [List.mem_map] at hx
    obtain ⟨m, hm, rfl⟩ := hx
    have hmm := hrows m hm
    simp [hmm.1, hmm.2]
  simpa using hlen

/-- `remove_collaborator` preserves well-formedness: it only ever filters
    rows out of the association table. -/
theorem StoreWF_remove (s : Store) (uid cid target : Nat) (h : StoreWF s) :
    StoreWF (remove_collaborator s uid cid target).2 := by
  unfold remove_collaborator
  split
  · exact h
  · split
    · exact h
    · split
      · exact h
      · split
        · exact h
        · split
          · exact h
          · refine ⟨h.1.sublist ((List.filter_sublist _).map _), ?_⟩
            intro c hc m hm hcat hrole
            replace hm : m ∈ s.collaborators.filter
              (fun m => ¬ (m.user_id == target && m.category_id == cid)) := hm
            rw [List.mem_filter] at hm
            exact h.2 c hc m hm.1 hcat hrole

/-- Setting a membership role to anything other than owner preserves
    well-formedness. -/
theorem StoreWF_setRole_nonowner (s : Store) (target cid : Nat) (r : String)
    (h : StoreWF s) (hr : r ≠ "owner") : StoreWF (setRole s target cid r) := by
  refine ⟨by rw [collabPairs_setRole]; exact h.1, ?_⟩
  intro c hc m' hm' hcat hrole
  replace hc : c ∈ s.categories := hc
  replace hm' : m' ∈ s.collaborators.map (roleUpd target cid r) := hm'
  rw [List.mem_map] at hm'
  obtain ⟨m0, hm0, rfl⟩ := hm'
  by_cases hmatch : m0.user_id = target ∧ m0.category_id = cid
  · rw [roleUpd_of_match target cid r m0 hmatch.1 hmatch.2] at hrole
    exact absurd hrole hr
  · rw [roleUpd_of_miss target cid r m0 hmatch] at hcat hrole ⊢
    exact h.2 c hc m0 hm0 hcat hrole

/-- Re-setting the acting owner's own role to owner preserves
    well-formedness. -/
theorem StoreWF_setRole_owner_self (s : Store) (uid cid : Nat)
    (h : StoreWF s) (hown : is_owner s uid cid = true) :
    StoreWF (setRole s uid cid "owner") := by
  obtain ⟨mo, hmo_mem, hmo_u, hmo_c, hmo_r, _⟩ := is_owner_row s uid cid hown
  refine ⟨by rw [collabPairs_setRole]; exact h.1, ?_⟩
  intro c hc m' hm' hcat hrole
  replace hc : c ∈ s.categories := hc
  replace hm' : m' ∈ s.collaborators.map (roleUpd uid cid "owner") := hm'
  rw [List.mem_map] at hm'
  obtain ⟨m0, hm0, rfl⟩ := hm'
  by_cases hmatch : m0.user_id = uid ∧ m0.category_id = cid
  · rw [roleUpd_of_match uid cid "owner" m0 hmatch.1 hmatch.2] at hcat ⊢
    have : cid = c.id := by rw [← hcat]; exact hmatch.2.symm
    have huid := h.2 c hc mo hmo_mem (by rw [hmo_c, this]) hmo_r
    simpa [hmatch.1] using by rw [← huid, hmo_u]
  · rw [roleUpd_of_miss uid cid "owner" m0 hmatch] at hcat hrole ⊢
    exact h.2 c hc m0 hm0 hcat hrole

/-- The ownership-transfer write set — owner column to the target, acting
    owner demoted to editor, target promoted to owner — preserves
    well-formedness. -/
theorem StoreWF_transfer (s : Store) (uid cid target : Nat)
    (h : StoreWF s) (hown : is_owner s uid cid = true) (hne : target ≠ uid) :
    StoreWF (setRole (setRole (setCategoryOwner s cid target) uid cid "editor")
      target cid "owner") := by
  obtain ⟨mo, hmo_mem, hmo_u, hmo_c, hmo_r, _⟩ := is_owner_row s uid cid hown
  refine ⟨by rw [collabPairs_setRole, collabPairs_setRole]; exact h.1, ?_⟩
  intro c' hc' m' hm' hcat hrole
  replace hc' : c' ∈ s.categories.map (ownUpd cid target) := hc'
  replace hm' : m' ∈ (s.collaborators.map (roleUpd uid cid "editor")).map
      (roleUpd target cid "owner") := hm'
  rw [List.mem_map] at hc'
  obtain ⟨c0, hc0, rfl⟩ := hc'
  rw [List.mem_map] at hm'
  obtain ⟨m1, hm1, rfl⟩ := hm'
  rw [List.mem_map] at hm1
  obtain ⟨m0, hm0, rfl⟩ := hm1
  by_cases hcid : c0.id = cid
  · -- the transferred category: its owner column is now the target
    rw [ownUpd_of_match cid target c0 hcid] at hcat ⊢
    by_cases hu : m0.user_id = target
    · -- the target's own row: promoted to owner
      rw [roleUpd_of_miss uid cid "editor" m0 (fun hand => hne (hu.symm.trans hand.1))]
      rw [roleUpd_of_miss uid cid "editor" m0
        (fun hand => hne (hu.symm.trans hand.1))] at hcat hrole
      by_cases hc2 : m0.category_id = cid
      · rw [roleUpd_of_match target cid "owner" m0 hu hc2]
        exact hu
      · rw [roleUpd_of_miss target cid "owner" m0 (fun hand => hc2 hand.2)] at hcat
        exact absurd (hcat.trans hcid) hc2
    · -- some other user's row
      by_cases hu2 : m0.user_id = uid ∧ m0.category_id = cid
      · -- the demoted previous owner: role is editor, not owner
        rw [roleUpd_of_match uid cid "editor" m0 hu2.1 hu2.2,
            roleUpd_of_miss target cid "owner" { m0 with role := "editor" }
              (fun hand => hu hand.1)] at hrole
        exact absurd (show ("editor" : String) = "owner" from hrole) (by decide)
      · rw [roleUpd_of_miss uid cid "editor" m0 hu2] at hcat hrole ⊢
        rw [roleUpd_of_miss target cid "owner" m0
          (fun hand => hu hand.1)] at hcat hrole ⊢
        -- an untouched owner row for the transferred category cannot
        -- exist: the old invariant pins every owner row to the acting
        -- owner's user id
        have hcc : m0.category_id = c0.id := hcat
        have h1 := h.2 c0 hc0 m0 hm0 hcc hrole
        have h2 := h.2 c0 hc0 mo hmo_mem (by rw [hmo_c, hcid]) hmo_r
        exact absurd ⟨h1.trans (h2.symm.trans hmo_u), hcc.trans hcid⟩ hu2
  · -- untouched categories keep untouched rows
    rw [ownUpd_of_miss cid target c0 hcid] at hcat ⊢
    have hc2 : m0.category_id ≠ cid := by
      intro hbad
      have e1 := roleUpd_cat uid cid "editor" m0
      have e2 := roleUpd_cat target cid "owner" (roleUpd uid cid "editor" m0)
      rw [e2, e1] at hcat
      exact hcid (hcat ▸ hbad ▸ rfl)
    rw [roleUpd_of_miss uid cid "editor" m0 (fun hand => hc2 hand.2)] at hcat hrole ⊢
    rw [roleUpd_of_miss target cid "owner" m0 (fun hand => hc2 hand.2)] at hcat hrole ⊢
    exact h.2 c0 hc0 m0 hm0 hcat hrole

/-- `update_collaborator_role` preserves well-formedness in every
    branch. -/
theorem StoreWF_update (s : Store) (uid cid target : Nat) (r : String)
    (h : StoreWF s) : StoreWF (update_collaborator_role s uid cid target r).2 := by
  unfold update_collaborator_role
  split
  · exact h
  · by_cases hown : is_owner s uid cid = true
    · rw [if_neg (not_not_intro hown)]
      split
      · exact h
      · by_cases hcoll : isCollaborator s target cid = true
        · rw [if_neg (not_not_intro hcoll)]
          by_cases hval : r = "owner" ∨ r = "editor"
          · rw [if_neg (not_not_intro hval)]
            by_cases htr : r = "owner" ∧ target ≠ uid
            · show StoreWF (setRole (if r = "owner" ∧ target ≠ uid
                then setRole (setCategoryOwner s cid target) uid cid "editor"
                else s) target cid r)
              rw [if_pos htr, htr.1]
              exact StoreWF_transfer s uid cid target h hown htr.2
            · show StoreWF (setRole (if r = "owner" ∧ target ≠ uid
                then setRole (setCategoryOwner s cid target) uid cid "editor"
                else s) target cid r)
              rw [if_neg htr]
              rcases hval with hro | hre
              · have hteq : target = uid := by
                  by_contra hne
                  exact htr ⟨hro, hne⟩
                subst hteq
                rw [hro]
                exact StoreWF_setRole_owner_self s target cid h hown
              · rw [hre]
                exact StoreWF_setRole_nonowner s target cid "editor" h (by decide)
          · rw [if_pos hval]
            exact h
        · rw [if_pos hcoll]
          exact h
    · rw [if_pos hown]
      exact h

/-- Inserting the creator's membership and promoting it to owner on a
    fresh category id preserves well-formedness. -/
theorem StoreWF_create_core (s : Store) (uid : Nat) (name : String)
    (pub : Bool) (nid : Nat) (h : StoreWF s)
    (hfc : ∀ c ∈ s.categories, c.id ≠ nid)
    (hfm : ∀ m ∈ s.collaborators, m.category_id ≠ nid) :
    StoreWF (setRole
      { s with
        categories := s.categories ++
          [{ id := nid, name := name, user_id := uid,
             is_public := pub, share_token := none }],
        collaborators := s.collaborators ++
          [{ user_id := uid, category_id := nid, role := "editor" }] }
      uid nid "owner") := by
  constructor
  · rw [collabPairs_setRole]
    have heq : collabPairs
        { s with
          categories := s.categories ++
            [{ id := nid, name := name, user_id := uid,
               is_public := pub, share_token := none }],
          collaborators := s.collaborators ++
            [{ user_id := uid, category_id := nid, role := "editor" }] } =
        collabPairs s ++ [(uid, nid)] := by
      simp [collabPairs]
    rw [heq, List.nodup_append]
    refine ⟨h.1, List.nodup_singleton _, ?_⟩
    intro a ha hb
    rw [collabPairs, List.mem_map] at ha
    obtain ⟨m, hm, rfl⟩ := ha
    rw [List.mem_singleton, Prod.mk.injEq] at hb
    exact hfm m hm hb.2
  · intro c hc m' hm' hcat hrole
    replace hc : c ∈ s.categories ++
      [{ id := nid, name := name, user_id := uid,
         is_public := pub, share_token := none }] := hc
    replace hm' : m' ∈ (s.collaborators ++
      [({ user_id := uid, category_id := nid, role := "editor" } : Membership)]).map
        (roleUpd uid nid "owner") := hm'
    rw [List.mem_map] at hm'
    obtain ⟨m0, hm0, rfl⟩ := hm'
    rw [List.mem_append] at hm0 hc
    cases hm0 with
    | inl hold =>
      rw [roleUpd_of_miss uid nid "owner" m0
        (fun hand => hfm m0 hold hand.2)] at hcat hrole ⊢
      cases hc with
      | inl hcold => exact h.2 c hcold m0 hold hcat hrole
      | inr hcnew =>
        rw [List.mem_singleton] at hcnew
        subst hcnew
        exact absurd hcat (hfm m0 hold)
    | inr hnew =>
      rw [List.mem_singleton] at hnew
      subst hnew
      rw [roleUpd_of_match uid nid "owner" _ rfl rfl] at hcat ⊢
      cases hc with
      | inl hcold => exact absurd (show (nid : Nat) = c.id from hcat).symm (hfc c hcold)
      | inr hcnew =>
        rw [List.mem_singleton] at hcnew
        subst hcnew
        rfl

/-- `create_category` preserves well-formedness when the database hands
    out a fresh category id. -/
theorem StoreWF_create (s : Store) (uid : Nat) (name : String) (pub : Bool)
    (nid : Nat) (h : StoreWF s)
    (hfc : ∀ c ∈ s.categories, c.id ≠ nid)
    (hfm : ∀ m ∈ s.collaborators, m.category_id ≠ nid) :
    StoreWF (create_category s uid name pub nid).2 := by
  unfold create_category
  split
  · exact h
  · split
    · exact h
    · exact StoreWF_create_core s uid name pub nid h hfc hfm

/-- Token generation only touches the token column. -/
theorem StoreWF_applyGenerateToken (s : Store) (cid : Nat) (fresh : String)
    (h : StoreWF s) : StoreWF (applyGenerateToken s cid fresh) :=
  ⟨h.1, ownerRowsMatch_applyGenerateToken s cid fresh h.2⟩

/-- Inserting a brand-new membership with a non-owner role preserves
    well-formedness. -/
theorem StoreWF_add_core (s : Store) (t cid : Nat) (role : String)
    (h : StoreWF s) (hrole : role = "editor" ∨ role = "reader")
    (hnorow : ∀ m ∈ s.collaborators, ¬ (m.user_id = t ∧ m.category_id = cid)) :
    StoreWF (setRole { s with collaborators := s.collaborators ++
      [{ user_id := t, category_id := cid, role := "editor" }] } t cid role) := by
  have hro : role ≠ "owner" := by
    rcases hrole with h' | h' <;> (subst h'; decide)
  constructor
  · rw [collabPairs_setRole]
    have heq : collabPairs { s with collaborators := s.collaborators ++
        [{ user_id := t, category_id := cid, role := "editor" }] } =
        collabPairs s ++ [(t, cid)] := by
      simp [collabPairs]
    rw [heq, List.nodup_append]
    refine ⟨h.1, List.nodup_singleton _, ?_⟩
    intro a ha hb
    rw [collabPairs, List.mem_map] at ha
    obtain ⟨m, hm, rfl⟩ := ha
    rw [List.mem_singleton, Prod.mk.injEq] at hb
    exact hnorow m hm ⟨hb.1, hb.2⟩
  · intro c hc m' hm' hcat hrl
    replace hc : c ∈ s.categories := hc
    replace hm' : m' ∈ (s.collaborators ++
      [({ user_id := t, category_id := cid, role := "editor" } : Membership)]).map
        (roleUpd t cid role) := hm'
    rw [List.mem_map] at hm'
    obtain ⟨m0, hm0, rfl⟩ := hm'
    rw [List.mem_append] at hm0
    cases hm0 with
    | inl hold =>
      rw [roleUpd_of_miss t cid role m0 (hnorow m0 hold)] at hcat hrl ⊢
      exact h.2 c hc m0 hold hcat hrl
    | inr hnew =>
      rw [List.mem_singleton] at hnew
      subst hnew
      rw [roleUpd_of_match t cid role _ rfl rfl] at hrl
      exact absurd (show role = "owner" from hrl) hro

/-- `add_collaborator` preserves well-formedness in every branch. -/
theorem StoreWF_add (s : Store) (uid cid : Nat) (em : Option String)
    (role fresh : String) (h : StoreWF s) :
    StoreWF (add_collaborator s uid cid em role fresh).2 := by
  unfold add_collaborator
  split
  · exact h
  next category _ =>
    split
    · exact h
    · split
      · exact h
      · split
        · exact h
        · split
          · exact h
          next hval =>
            split
            · exact h
            next collaborator _ =>
              split
              · exact h
              next hcoll =>
                have hval' := not_not.mp hval
                have hnorow := not_collaborator_no_row s collaborator.id cid hcoll
                show StoreWF (if category.share_token = none
                  then applyGenerateToken (setRole
                    { s with collaborators := s.collaborators ++
                      [{ user_id := collaborator.id, category_id := cid,
                         role := "editor" }] } collaborator.id cid role) cid fresh
                  else setRole
                    { s with collaborators := s.collaborators ++
                      [{ user_id := collaborator.id, category_id := cid,
                         role := "editor" }] } collaborator.id cid role)
                split
                · exact StoreWF_applyGenerateToken _ cid fresh
                    (StoreWF_add_core s collaborator.id cid role h hval' hnorow)
                · exact StoreWF_add_core s collaborator.id cid role h hval' hnorow

/-! ## Claim C1 -/

/-- C1, counterexample: the claimed invariant — exactly one owner
    membership row per category, agreeing with the category's `user_id`
    column — is violated by a reachable sequence of operations. Alice
    creates a category (invariant holds), then, as acting owner, updates
    her own role to editor; `update_collaborator_role` accepts this (the
    ownership-transfer branch only fires for a different target), leaving
    the category with zero owner rows while `user_id` still names Alice. -/
theorem C1_owner_unique_counterexample :
    ownerUnique exStore1 = true ∧
    (update_collaborator_role exStore1 1 7 1 "editor").1 = Except.ok () ∧
    ownerUnique (update_collaborator_role exStore1 1 7 1 "editor").2 = false := by
  refine ⟨by decide, by rfl, by decide⟩

/-- C1, amended: under membership-key uniqueness, every category has at
    most one owner membership row, and every owner row's user equals the
    category's `user_id` column; this weakened invariant (at most one
    instead of exactly one, because the owner may demote their own role to
    editor, leaving zero owner rows) is preserved by category creation
    (with a fresh id), collaborator addition, collaborator removal and
    role update. -/
theorem C1_owner_invariant_amended :
    (∀ s : Store, StoreWF s → ∀ c ∈ s.categories,
      (ownerRows s c.id).length ≤ 1 ∧
      ∀ m ∈ ownerRows s c.id, m.user_id = c.user_id) ∧
    (∀ s uid name pub nid, StoreWF s →
      (∀ c ∈ s.categories, c.id ≠ nid) →
      (∀ m ∈ s.collaborators, m.category_id ≠ nid) →
      StoreWF (create_category s uid name pub nid).2) ∧
    (∀ s uid cid em role fresh, StoreWF s →
      StoreWF (add_collaborator s uid cid em role fresh).2) ∧
    (∀ s uid cid target, StoreWF s →
      StoreWF (remove_collaborator s uid cid target).2) ∧
    (∀ s uid cid target r, StoreWF s →
      StoreWF (update_collaborator_role s uid cid target r).2) :=
  ⟨StoreWF_atMostOne,
   fun s uid name pub nid h hfc hfm => StoreWF_create s uid name pub nid h hfc hfm,
   fun s uid cid em role fresh h => StoreWF_add s uid cid em role fresh h,
   fun s uid cid target h => StoreWF_remove s uid cid target h,
   fun s uid cid target r h => StoreWF_update s uid cid target r h⟩

/-- Witness for C1 (amended): the well-formed store where Alice owns
    category 7 with Bob as editor satisfies the conclusions at concrete
    arguments, including across an ownership transfer to Bob. -/
theorem C1_owner_invariant_amended_witness :
    ((ownerRows exStore2 7).length ≤ 1 ∧
      ∀ m ∈ ownerRows exStore2 7, m.user_id = 1) ∧
    StoreWF (update_collaborator_role exStore2 1 7 2 "owner").2 := by
  constructor
  · have hwf : StoreWF exStore2 := by decide
    have hcat : (⟨7, "research", 1, false, some "tok-1"⟩ : CategoryRec) ∈
        exStore2.categories := by decide
    exact C1_owner_invariant_amended.1 exStore2 hwf _ hcat
  · exact C1_owner_invariant_amended.2.2.2.2 exStore2 1 7 2 "owner" (by decide)

/-! ## Claim C2 -/

/-- A true `isCollaborator` check produces the matching membership row. -/
theorem isCollaborator_row (s : Store) (u cid : Nat)
    (h : isCollaborator s u cid = true) :
    ∃ m, s.collaborators.find? (memberFor u cid) = some m ∧
      m.user_id = u ∧ m.category_id = cid := by
  unfold isCollaborator collabRole at h
  cases hfind : s.collaborators.find? (memberFor u cid) with
  | none => rw [hfind] at h; simp at h
  | some m =>
    have hp := List.find?_some hfind
    simp only [memberFor, Bool.and_eq_true, beq_iff_eq] at hp
    exact ⟨m, rfl, hp.1, hp.2⟩

/-- In the transfer case, `update_collaborator_role` reduces to the three
    ownership-transfer writes. -/
theorem update_collaborator_role_transfer_eq (s : Store) (A cid B : Nat)
    (hown : is_owner s A cid = true)
    (hcat : (findCategory s cid).isSome = true)
    (huser : (findUser s B).isSome = true)
    (hcoll : isCollaborator s B cid = true)
    (hne : B ≠ A) :
    update_collaborator_role s A cid B "owner" =
      (Except.ok (), setRole (setRole (setCategoryOwner s cid B) A cid "editor")
        B cid "owner") := by
  unfold update_collaborator_role
  obtain ⟨c, hc⟩ := Option.isSome_iff_exists.mp hcat
  obtain ⟨u, hu⟩ := Option.isSome_iff_exists.mp huser
  simp only [hc, hu]
  rw [if_neg (not_not_intro hown), if_neg (not_not_intro hcoll)]
  simp [hne]

/-- Every run of `update_collaborator_role` either reports success or
    leaves the store untouched. -/
theorem update_role_ok_or_unchanged (s : Store) (uid cid target : Nat)
    (r : String) :
    (update_collaborator_role s uid cid target r).1 = Except.ok () ∨
    (update_collaborator_role s uid cid target r).2 = s := by
  unfold update_collaborator_role
  split
  · right; rfl
  · split
    · right; rfl
    · split
      · right; rfl
      · split
        · right; rfl
        · split
          · right; rfl
          · left; rfl

/-- C2: for an acting owner A and a collaborator target B ≠ A,
    `updateRole(A, category, B, owner)` succeeds and afterwards the
    category's `user_id` column points to B, A's membership role is
    editor and B's is owner; and any failing run of the operation leaves
    the store entirely unchanged, so the three transfer writes are
    all-or-nothing. -/
theorem C2_ownership_transfer_atomic (s : Store) (A cid B : Nat)
    (hown : is_owner s A cid = true)
    (hcat : (findCategory s cid).isSome = true)
    (huser : (findUser s B).isSome = true)
    (hcoll : isCollaborator s B cid = true)
    (hne : B ≠ A) :
    (update_collaborator_role s A cid B "owner").1 = Except.ok () ∧
    (∀ c ∈ (update_collaborator_role s A cid B "owner").2.categories,
      c.id = cid → c.user_id = B) ∧
    collabRole (update_collaborator_role s A cid B "owner").2 A cid
      = some "editor" ∧
    collabRole (update_collaborator_role s A cid B "owner").2 B cid
      = some "owner" ∧
    (∀ uid' cid' t' r',
      (update_collaborator_role s uid' cid' t' r').1 = Except.ok () ∨
      (update_collaborator_role s uid' cid' t' r').2 = s) := by
  have hred := update_collaborator_role_transfer_eq s A cid B hown hcat huser hcoll hne
  obtain ⟨mA, hmA_mem, hmA_u, hmA_c, hmA_r, hmA_find⟩ := is_owner_row s A cid hown
  obtain ⟨mB, hmB_find, hmB_u, hmB_c⟩ := isCollaborator_row s B cid hcoll
  have hfindmap : ∀ (u0 c0 : Nat),
      (setRole (setCategoryOwner s cid B) A cid "editor").collaborators.find?
        (memberFor u0 c0)
      = (s.collaborators.find? (memberFor u0 c0)).map (roleUpd A cid "editor") := by
    intro u0 c0
    show (s.collaborators.map (roleUpd A cid "editor")).find? (memberFor u0 c0) = _
    exact find?_map_pred_preserved _ _ (memberFor_roleUpd u0 c0 A cid "editor") _
  refine ⟨by rw [hred], ?_, ?_, ?_,
    fun uid' cid' t' r' => update_role_ok_or_unchanged s uid' cid' t' r'⟩
  · intro c hc hcid
    rw [hred] at hc
    replace hc : c ∈ s.categories.map (ownUpd cid B) := hc
    rw [List.mem_map] at hc
    obtain ⟨c0, hc0, rfl⟩ := hc
    by_cases h0 : c0.id = cid
    · rw [ownUpd_of_match cid B c0 h0]
    · rw [ownUpd_of_miss cid B c0 h0] at hcid ⊢
      exact absurd hcid h0
  · rw [hred]
    show collabRole (setRole (setRole (setCategoryOwner s cid B) A cid "editor")
      B cid "owner") A cid = some "editor"
    rw [collabRole_setRole, hfindmap A cid, hmA_find]
    simp only [Option.map_some']
    rw [roleUpd_of_match A cid "editor" mA hmA_u hmA_c]
    rw [roleUpd_of_miss B cid "owner" { mA with role := "editor" }
      (fun hand => hne ((hmA_u.symm.trans hand.1).symm))]
  · rw [hred]
    show collabRole (setRole (setRole (setCategoryOwner s cid B) A cid "editor")
      B cid "owner") B cid = some "owner"
    rw [collabRole_setRole, hfindmap B cid, hmB_find]
    simp only [Option.map_some']
    rw [roleUpd_of_miss A cid "editor" mB
      (fun hand => hne (hmB_u.symm.trans hand.1))]
    rw [roleUpd_of_match B cid "owner" mB hmB_u hmB_c]

/-- Witness for C2: Alice transfers category 7 to Bob in the concrete
    store. -/
theorem C2_ownership_transfer_atomic_witness :
    (update_collaborator_role exStore2 1 7 2 "owner").1 = Except.ok () ∧
    (∀ c ∈ (update_collaborator_role exStore2 1 7 2 "owner").2.categories,
      c.id = 7 → c.user_id = 2) ∧
    collabRole (update_collaborator_role exStore2 1 7 2 "owner").2 1 7
      = some "editor" ∧
    collabRole (update_collaborator_role exStore2 1 7 2 "owner").2 2 7
      = some "owner" ∧
    (∀ uid' cid' t' r',
      (update_collaborator_role exStore2 uid' cid' t' r').1 = Except.ok () ∨
      (update_collaborator_role exStore2 uid' cid' t' r').2 = exStore2) :=
  C2_ownership_transfer_atomic exStore2 1 7 2 (by decide) (by decide)
    (by decide) (by decide) (by decide)

end BookmarkApi

namespace BookmarkApi

/-! ## Claims C3 and C4 -/

/-- A public category owned by Alice; Carol (id 3) has no membership. -/
def exPubStore : Store :=
  { users := [{ id := 1, username := "alice", email := "alice@example.com" },
              { id := 3, username := "carol", email := "carol@example.com" }],
    categories := [{ id := 9, name := "pub", user_id := 1,
                     is_public := true, share_token := none }],
    bookmarks := [{ id := 5, url := "https://b.example", body := none,
                    user_id := 1, category_id := some 9 }],
    collaborators := [{ user_id := 1, category_id := 9, role := "owner" }] }

/-- C3: a category with `is_public = true` is readable through the public
    endpoint by every identity, authenticated or not: the handler carries
    no authentication decorator, so the result does not depend on the
    identity or on any collaborator membership, and it succeeds whenever
    the category exists and is public. -/
theorem C3_public_category_readable (s : Store) (u1 u2 : Option Nat)
    (cid : Nat) (c : CategoryRec) (hc : c ∈ s.categories) (hid : c.id = cid)
    (hpub : c.is_public = true) :
    (∃ v, get_public_category s u1 cid = Except.ok v) ∧
    get_public_category s u1 cid = get_public_category s u2 cid := by
  refine ⟨?_, rfl⟩
  unfold get_public_category
  cases hfind : s.categories.find? (fun c => c.id == cid && c.is_public) with
  | none =>
    rw [List.find?_eq_none] at hfind
    exact absurd (by simp [hid, hpub]) (hfind c hc)
  | some cat => exact ⟨_, rfl⟩

/-- Witness for C3: anonymous and authenticated reads of the public
    category 9 both succeed and agree, although user 3 is no
    collaborator. -/
theorem C3_public_category_readable_witness :
    (∃ v, get_public_category exPubStore none 9 = Except.ok v) ∧
    get_public_category exPubStore none 9
      = get_public_category exPubStore (some 3) 9 :=
  C3_public_category_readable exPubStore none (some 3) 9
    { id := 9, name := "pub", user_id := 1, is_public := true,
      share_token := none }
    (by decide) rfl rfl

/-- C4: share-token resolution never writes — the store after
    `get_shared_category` is always the store before, and it is the only
    handler reachable with a share token alone — and for a category
    carrying the presented token it returns that category together with
    its bookmarks, without any authentication input. -/
theorem C4_share_token_read_only (s : Store) (tok : String) :
    (get_shared_category s tok).2 = s ∧
    (∀ c ∈ s.categories, c.share_token = some tok →
      ∃ v, (get_shared_category s tok).1 = Except.ok v ∧
        v.bookmarks = bookmarksOf s v.id) := by
  constructor
  · unfold get_shared_category
    split <;> rfl
  · intro c hc htok
    unfold get_shared_category
    cases hfind : s.categories.find? (fun c => c.share_token == some tok) with
    | none =>
      rw [List.find?_eq_none] at hfind
      exact absurd (by simp [htok]) (hfind c hc)
    | some cat => exact ⟨_, rfl, rfl⟩

/-- Witness for C4: resolving token "tok-1" in the concrete store leaves
    the store unchanged and returns category 7 with its bookmarks. -/
theorem C4_share_token_read_only_witness :
    (get_shared_category exStore2 "tok-1").2 = exStore2 ∧
    ∃ v, (get_shared_category exStore2 "tok-1").1 = Except.ok v ∧
      v.bookmarks = bookmarksOf exStore2 v.id :=
  ⟨(C4_share_token_read_only exStore2 "tok-1").1,
   (C4_share_token_read_only exStore2 "tok-1").2
     { id := 7, name := "research", user_id := 1, is_public := false,
       share_token := some "tok-1" }
     (by decide) rfl⟩

end BookmarkApi

namespace BookmarkApi

/-! ## Claim C5 -/

/-- C5: with the category present, `remove_collaborator` fails with
    Forbidden unless the acting user is the owner; fails with NotFound
    when the target is not a collaborator; fails with Forbidden when the
    target is the current owner; and otherwise succeeds, deleting exactly
    the target's membership row and touching nothing else. -/
theorem C5_remove_collaborator_rules (s : Store) (cid acting target : Nat)
    (hcat : (findCategory s cid).isSome = true) :
    (is_owner s acting cid = false →
      remove_collaborator s acting cid target
        = (Except.error ApiError.forbidden, s)) ∧
    (isCollaborator s target cid = false → is_owner s acting cid = true →
      remove_collaborator s acting cid target
        = (Except.error ApiError.notFound, s)) ∧
    ((findUser s target).isSome = true → isCollaborator s target cid = true →
      is_owner s acting cid = true → is_owner s target cid = true →
      remove_collaborator s acting cid target
        = (Except.error ApiError.forbidden, s)) ∧
    ((findUser s target).isSome = true → isCollaborator s target cid = true →
      is_owner s acting cid = true → is_owner s target cid = false →
      (remove_collaborator s acting cid target).1 = Except.ok () ∧
      (∀ m ∈ s.collaborators, ¬ (m.user_id = target ∧ m.category_id = cid) →
        m ∈ (remove_collaborator s acting cid target).2.collaborators) ∧
      (∀ m ∈ (remove_collaborator s acting cid target).2.collaborators,
        m ∈ s.collaborators ∧ ¬ (m.user_id = target ∧ m.category_id = cid)) ∧
      (remove_collaborator s acting cid target).2.categories = s.categories ∧
      (remove_collaborator s acting cid target).2.users = s.users ∧
      (remove_collaborator s acting cid target).2.bookmarks = s.bookmarks) := by
  obtain ⟨c, hc⟩ := Option.isSome_iff_exists.mp hcat
  refine ⟨?_, ?_, ?_, ?_⟩
  · intro hno
    unfold remove_collaborator
    simp only [hc]
    rw [if_pos (by simp [hno])]
  · intro hnc hown
    unfold remove_collaborator
    simp only [hc]
    rw [if_neg (not_not_intro hown)]
    cases hu : findUser s target with
    | none => rfl
    | some u => rw [if_pos (by simp [hnc])]
  · intro hu hcoll hown htown
    obtain ⟨u, hufind⟩ := Option.isSome_iff_exists.mp hu
    unfold remove_collaborator
    simp only [hc, hufind]
    rw [if_neg (not_not_intro hown), if_neg (not_not_intro hcoll), if_pos htown]
  · intro hu hcoll hown htown
    obtain ⟨u, hufind⟩ := Option.isSome_iff_exists.mp hu
    have hred : remove_collaborator s acting cid target =
        (Except.ok (), { s with collaborators := (s.collaborators.filter
          (fun m => ¬ (m.user_id == target && m.category_id == cid))) }) := by
      unfold remove_collaborator
      simp only [hc, hufind]
      rw [if_neg (not_not_intro hown), if_neg (not_not_intro hcoll),
          if_neg (by simp [htown])]
    refine ⟨by rw [hred], ?_, ?_, by rw [hred], by rw [hred], by rw [hred]⟩
    · intro m hm hnot
      rw [hred]
      show m ∈ s.collaborators.filter
        (fun m => ¬ (m.user_id == target && m.category_id == cid))
      rw [List.mem_filter]
      refine ⟨hm, ?_⟩
      simp only [decide_eq_true_eq, Bool.and_eq_true, beq_iff_eq]
      exact hnot
    · intro m hm
      rw [hred] at hm
      replace hm : m ∈ s.collaborators.filter
        (fun m => ¬ (m.user_id == target && m.category_id == cid)) := hm
      rw [List.mem_filter] at hm
      refine ⟨hm.1, ?_⟩
      have := hm.2
      simp only [decide_eq_true_eq, Bool.and_eq_true, beq_iff_eq] at this
      exact this

/-- Witness for C5: in the concrete store, Bob (non-owner) is refused,
    removing non-member Carol is NotFound, removing owner Alice is
    Forbidden, and removing editor Bob succeeds. -/
theorem C5_remove_collaborator_rules_witness :
    remove_collaborator exStore2 2 7 1
      = (Except.error ApiError.forbidden, exStore2) ∧
    remove_collaborator exStore2 1 7 3
      = (Except.error ApiError.notFound, exStore2) ∧
    remove_collaborator exStore2 1 7 1
      = (Except.error ApiError.forbidden, exStore2) ∧
    (remove_collaborator exStore2 1 7 2).1 = Except.ok () :=
  ⟨(C5_remove_collaborator_rules exStore2 7 2 1 (by decide)).1 (by decide),
   (C5_remove_collaborator_rules exStore2 7 1 3 (by decide)).2.1
     (by decide) (by decide),
   (C5_remove_collaborator_rules exStore2 7 1 1 (by decide)).2.2.1
     (by decide) (by decide) (by decide) (by decide),
   ((C5_remove_collaborator_rules exStore2 7 1 2 (by decide)).2.2.2
     (by decide) (by decide) (by decide) (by decide)).1⟩

end BookmarkApi

namespace BookmarkApi

/-! ## Claim C6 -/

/-- A false `isCollaborator` check means the row lookup finds nothing. -/
theorem not_collaborator_find?_none (s : Store) (u cid : Nat)
    (h : isCollaborator s u cid = false) :
    s.collaborators.find? (memberFor u cid) = none := by
  unfold isCollaborator collabRole at h
  cases hfind : s.collaborators.find? (memberFor u cid) with
  | none => rfl
  | some m => rw [hfind] at h; simp at h

/-- C6: with the category present, a nonempty email and a role in
    {editor, reader}, `add_collaborator` fails with Forbidden unless the
    acting user is the owner, NotFound when no user has the email,
    Conflict when the target is already a collaborator; otherwise it
    succeeds, the target's membership carries the requested role, and the
    category ends up with a non-null share token. -/
theorem C6_add_collaborator_rules (s : Store) (cid acting : Nat)
    (em role fresh : String) (c : CategoryRec)
    (hc : findCategory s cid = some c)
    (hem : ¬ em = "") (hrole : role = "editor" ∨ role = "reader") :
    (is_owner s acting cid = false →
      add_collaborator s acting cid (some em) role fresh
        = (Except.error ApiError.forbidden, s)) ∧
    (is_owner s acting cid = true → findUserByEmail s em = none →
      add_collaborator s acting cid (some em) role fresh
        = (Except.error ApiError.notFound, s)) ∧
    (∀ t, is_owner s acting cid = true → findUserByEmail s em = some t →
      isCollaborator s t.id cid = true →
      add_collaborator s acting cid (some em) role fresh
        = (Except.error ApiError.conflict, s)) ∧
    (∀ t, is_owner s acting cid = true → findUserByEmail s em = some t →
      isCollaborator s t.id cid = false →
      (add_collaborator s acting cid (some em) role fresh).1 = Except.ok () ∧
      collabRole (add_collaborator s acting cid (some em) role fresh).2
        t.id cid = some role ∧
      ∃ c', findCategory
          (add_collaborator s acting cid (some em) role fresh).2 cid = some c' ∧
        c'.share_token.isSome = true) := by
  refine ⟨?_, ?_, ?_, ?_⟩
  · intro hno
    unfold add_collaborator
    simp only [hc]
    rw [if_pos (by simp [hno])]
  · intro hown hmail
    unfold add_collaborator
    simp only [hc, hmail]
    rw [if_neg (not_not_intro hown), if_neg hem, if_neg (not_not_intro hrole)]
  · intro t hown hmail hdup
    unfold add_collaborator
    simp only [hc, hmail]
    rw [if_neg (not_not_intro hown), if_neg hem, if_neg (not_not_intro hrole),
        if_pos hdup]
  · intro t hown hmail hnc
    have hfnone := not_collaborator_find?_none s t.id cid hnc
    have hred : add_collaborator s acting cid (some em) role fresh =
        (Except.ok (),
          if c.share_token = none
          then applyGenerateToken (setRole
            { s with collaborators := (s.collaborators ++
              [{ user_id := t.id, category_id := cid, role := "editor" }]) }
            t.id cid role) cid fresh
          else setRole
            { s with collaborators := (s.collaborators ++
              [{ user_id := t.id, category_id := cid, role := "editor" }]) }
            t.id cid role) := by
      unfold add_collaborator
      simp only [hc, hmail]
      rw [if_neg (not_not_intro hown), if_neg hem, if_neg (not_not_intro hrole),
          if_neg (by simp [hnc])]
    have hcore : collabRole (setRole
        { s with collaborators := (s.collaborators ++
          [{ user_id := t.id, category_id := cid, role := "editor" }]) }
        t.id cid role) t.id cid = some role := by
      rw [collabRole_setRole]
      show ((s.collaborators ++
        [({ user_id := t.id, category_id := cid, role := "editor" } : Membership)]).find?
          (memberFor t.id cid)).map (fun m => (roleUpd t.id cid role m).role)
        = some role
      rw [List.find?_append, hfnone]
      simp only [Option.none_or]
      have hone :
          ([({ user_id := t.id, category_id := cid, role := "editor" } : Membership)]).find?
            (memberFor t.id cid)
          = some { user_id := t.id, category_id := cid, role := "editor" } := by
        simp [List.find?, memberFor]
      rw [hone]
      simp only [Option.map_some']
      rw [roleUpd_of_match t.id cid role _ rfl rfl]
    refine ⟨by rw [hred], ?_, ?_⟩
    · rw [hred]
      show collabRole (if c.share_token = none
        then applyGenerateToken (setRole
          { s with collaborators := (s.collaborators ++
            [{ user_id := t.id, category_id := cid, role := "editor" }]) }
          t.id cid role) cid fresh
        else setRole
          { s with collaborators := (s.collaborators ++
            [{ user_id := t.id, category_id := cid, role := "editor" }]) }
          t.id cid role) t.id cid = some role
      split
      · exact hcore
      · exact hcore
    · rw [hred]
      have hcid : (c.id == cid) = true := by
        have hfc : s.categories.find? (fun x => x.id == cid) = some c := hc
        simpa using List.find?_some hfc
      cases htok : c.share_token with
      | none =>
        rw [if_pos rfl]
        refine ⟨genUpd cid fresh c, ?_, ?_⟩
        · show (s.categories.map (genUpd cid fresh)).find?
            (fun x => x.id == cid) = some (genUpd cid fresh c)
          rw [find?_map_pred_preserved (genUpd cid fresh)
            (fun x => x.id == cid) (fun a => by simp [genUpd_id])]
          rw [show s.categories.find? (fun x => x.id == cid) = some c from hc]
          rfl
        · have hgen : genUpd cid fresh c = { c with share_token := some fresh } := by
            unfold genUpd
            rw [if_pos hcid]
            unfold generate_share_token_model
            rw [htok]
          rw [hgen]
          rfl
      | some tk =>
        rw [if_neg (by simp)]
        refine ⟨c, hc, by rw [htok]; rfl⟩

/-- Witness for C6: Bob may not invite, an unknown email is NotFound,
    re-adding Bob is Conflict, and adding Carol as reader succeeds. -/
theorem C6_add_collaborator_rules_witness :
    add_collaborator exStore2 2 7 (some "carol@example.com") "editor" "t2"
      = (Except.error ApiError.forbidden, exStore2) ∧
    add_collaborator exStore2 1 7 (some "dave@example.com") "editor" "t2"
      = (Except.error ApiError.notFound, exStore2) ∧
    add_collaborator exStore2 1 7 (some "bob@example.com") "editor" "t2"
      = (Except.error ApiError.conflict, exStore2) ∧
    (add_collaborator exStore2 1 7 (some "carol@example.com") "reader" "t2").1
      = Except.ok () :=
  ⟨(C6_add_collaborator_rules exStore2 7 2 "carol@example.com" "editor" "t2"
      { id := 7, name := "research", user_id := 1, is_public := false,
        share_token := some "tok-1" } (by decide) (by decide)
      (Or.inl rfl)).1 (by decide),
   (C6_add_collaborator_rules exStore2 7 1 "dave@example.com" "editor" "t2"
      { id := 7, name := "research", user_id := 1, is_public := false,
        share_token := some "tok-1" } (by decide) (by decide)
      (Or.inl rfl)).2.1 (by decide) (by decide),
   (C6_add_collaborator_rules exStore2 7 1 "bob@example.com" "editor" "t2"
      { id := 7, name := "research", user_id := 1, is_public := false,
        share_token := some "tok-1" } (by decide) (by decide)
      (Or.inl rfl)).2.2.1
     { id := 2, username := "bob", email := "bob@example.com" }
     (by decide) (by decide) (by decide),
   ((C6_add_collaborator_rules exStore2 7 1 "carol@example.com" "reader" "t2"
      { id := 7, name := "research", user_id := 1, is_public := false,
        share_token := some "tok-1" } (by decide) (by decide)
      (Or.inr rfl)).2.2.2
     { id := 3, username := "carol", email := "carol@example.com" }
     (by decide) (by decide) (by decide)).1⟩

end BookmarkApi

namespace BookmarkApi

/-! ## Claim C7 -/

/-- C7: with the acting user the owner, `generate_share_token` is
    idempotent — if the category already has a token it is returned
    unchanged and the store is untouched — and on a category without a
    token it installs exactly the fresh token. -/
theorem C7_generate_share_token_idempotent (s : Store) (acting cid : Nat)
    (fresh : String) (c : CategoryRec)
    (hc : findCategory s cid = some c)
    (hown : is_owner s acting cid = true)
    (huniq : ∀ x ∈ s.categories, x.id = cid → x = c) :
    (∀ tk, c.share_token = some tk →
      generate_share_token_route s acting cid fresh
        = (Except.ok (some tk), s)) ∧
    (c.share_token = none →
      (generate_share_token_route s acting cid fresh).1
        = Except.ok (some fresh) ∧
      findCategory (generate_share_token_route s acting cid fresh).2 cid
        = some { c with share_token := some fresh }) := by
  have hcid : (c.id == cid) = true := by
    have hfc : s.categories.find? (fun x => x.id == cid) = some c := hc
    simpa using List.find?_some hfc
  constructor
  · intro tk htok
    unfold generate_share_token_route
    simp only [hc]
    rw [if_neg (not_not_intro hown)]
    have hgenc : generate_share_token_model c fresh = c := by
      unfold generate_share_token_model
      rw [htok]
    have hmap : applyGenerateToken s cid fresh = s := by
      unfold applyGenerateToken
      have hself : s.categories.map (genUpd cid fresh) = s.categories := by
        apply map_eq_self_of_fix
        intro a ha
        unfold genUpd
        by_cases h0 : (a.id == cid) = true
        · rw [if_pos h0]
          have haeq : a = c := huniq a ha (by simpa using h0)
          rw [haeq, hgenc]
        · rw [if_neg (by simpa using h0)]
      rw [hself]
    rw [hgenc, hmap, htok]
  · intro htok
    unfold generate_share_token_route
    simp only [hc]
    rw [if_neg (not_not_intro hown)]
    constructor
    · show Except.ok (generate_share_token_model c fresh).share_token
        = Except.ok (some fresh)
      unfold generate_share_token_model
      rw [htok]
    · show (s.categories.map (genUpd cid fresh)).find? (fun x => x.id == cid)
        = some { c with share_token := some fresh }
      rw [find?_map_pred_preserved (genUpd cid fresh)
        (fun x => x.id == cid) (fun a => by simp [genUpd_id])]
      rw [show s.categories.find? (fun x => x.id == cid) = some c from hc]
      simp only [Option.map_some']
      unfold genUpd
      rw [if_pos hcid]
      unfold generate_share_token_model
      rw [htok]

/-- Witness for C7: regenerating on category 7 (token "tok-1") returns
    "tok-1" and changes nothing; generating on the token-less category
    installs the fresh value. -/
theorem C7_generate_share_token_idempotent_witness :
    generate_share_token_route exStore2 1 7 "t9"
      = (Except.ok (some "tok-1"), exStore2) ∧
    ((generate_share_token_route exStore1 1 7 "t9").1
      = Except.ok (some "t9") ∧
     findCategory (generate_share_token_route exStore1 1 7 "t9").2 7
      = some { id := 7, name := "research", user_id := 1,
               is_public := false, share_token := some "t9" }) :=
  ⟨(C7_generate_share_token_idempotent exStore2 1 7 "t9"
      { id := 7, name := "research", user_id := 1, is_public := false,
        share_token := some "tok-1" }
      (by decide) (by decide) (by decide)).1 "tok-1" rfl,
   (C7_generate_share_token_idempotent exStore1 1 7 "t9"
      { id := 7, name := "research", user_id := 1, is_public := false,
        share_token := none }
      (by decide) (by decide) (by decide)).2 rfl⟩

end BookmarkApi

namespace BookmarkApi

/-! ## Claim C8 -/

/-- C8: bookmark read, update and delete succeed only for the bookmark's
    creator — holding any category role does not enter into those
    handlers at all — while any collaborator (or anybody on a public
    category) can create a new bookmark inside the category. -/
theorem C8_bookmark_creator_only (s : Store) (uid bid : Nat) :
    (∀ v, get_bookmark s uid bid = Except.ok v →
      v.user_id = uid ∧ v.id = bid) ∧
    (∀ u2 b2 c2, (update_bookmark s uid bid u2 b2 c2).1 = Except.ok () →
      ∃ bm ∈ s.bookmarks, bm.id = bid ∧ bm.user_id = uid) ∧
    ((delete_bookmark s uid bid).1 = Except.ok () →
      ∃ bm ∈ s.bookmarks, bm.id = bid ∧ bm.user_id = uid) ∧
    (∀ url body cid nid c, ¬ url = "" → c ∈ s.categories → c.id = cid →
      isCollaborator s uid cid = true →
      (create_bookmark s uid url body (some cid) nid).1 = Except.ok nid) := by
  refine ⟨?_, ?_, ?_, ?_⟩
  · intro v hv
    unfold get_bookmark at hv
    cases hfind : s.bookmarks.find? (fun b => b.user_id == uid && b.id == bid) with
    | none => rw [hfind] at hv; simp at hv
    | some b =>
      rw [hfind] at hv
      have hp := List.find?_some hfind
      simp only [Bool.and_eq_true, beq_iff_eq] at hp
      simp only [Except.ok.injEq] at hv
      subst hv
      exact ⟨hp.1, hp.2⟩
  · intro u2 b2 c2 hok
    unfold update_bookmark at hok
    cases hfind : s.bookmarks.find? (fun b => b.id == bid && b.user_id == uid) with
    | none => rw [hfind] at hok; simp at hok
    | some bm =>
      have hp := List.find?_some hfind
      simp only [Bool.and_eq_true, beq_iff_eq] at hp
      exact ⟨bm, List.mem_of_find?_eq_some hfind, hp.1, hp.2⟩
  · intro hok
    unfold delete_bookmark at hok
    cases hfind : s.bookmarks.find? (fun b => b.user_id == uid && b.id == bid) with
    | none => rw [hfind] at hok; simp at hok
    | some bm =>
      have hp := List.find?_some hfind
      simp only [Bool.and_eq_true, beq_iff_eq] at hp
      exact ⟨bm, List.mem_of_find?_eq_some hfind, hp.2, hp.1⟩
  · intro url body cid nid c hurl hc hcid hcoll
    unfold create_bookmark
    rw [if_neg hurl]
    have h1 : s.categories.any (fun x => x.id == cid) = true :=
      List.any_eq_true.mpr ⟨c, hc, by simp [hcid]⟩
    simp [h1, hcoll]

/-- Witness for C8: in the concrete store Alice's bookmark 4 is only
    reachable as hers, and editor Bob successfully creates bookmark 6 in
    category 7. -/
theorem C8_bookmark_creator_only_witness :
    (({ id := 4, url := "https://proofs.example", body := none,
        user_id := 1, category_id := some 7 } : BookmarkRec).user_id = 1 ∧
     ({ id := 4, url := "https://proofs.example", body := none,
        user_id := 1, category_id := some 7 } : BookmarkRec).id = 4) ∧
    (∃ bm ∈ exStore3.bookmarks, bm.id = 4 ∧ bm.user_id = 1) ∧
    (create_bookmark exStore3 2 "https://new.example" none (some 7) 6).1
      = Except.ok 6 :=
  ⟨(C8_bookmark_creator_only exStore3 1 4).1
     { id := 4, url := "https://proofs.example", body := none,
       user_id := 1, category_id := some 7 } (by rfl),
   (C8_bookmark_creator_only exStore3 1 4).2.1 none none none (by rfl),
   (C8_bookmark_creator_only exStore3 2 0).2.2.2 "https://new.example" none 7 6
     { id := 7, name := "research", user_id := 1, is_public := false,
       share_token := some "tok-1" }
     (by decide) (by decide) rfl (by decide)⟩

/-! ## Claim C9 -/

/-- C9: for any submitted non-empty email, the forgot-password endpoint
    returns the one fixed success response, independent of the store and
    hence of whether the email is registered; only the sent-mail side
    effect can differ. -/
theorem C9_forgot_password_uniform (s1 s2 : Store) (em : String)
    (hem : ¬ em = "") :
    (forgot_password s1 (some em)).1 = (200, forgotPasswordMessage) ∧
    (forgot_password s1 (some em)).1 = (forgot_password s2 (some em)).1 := by
  have hgen : ∀ s : Store,
      (forgot_password s (some em)).1 = (200, forgotPasswordMessage) := by
    intro s
    show (if em = "" then ((400, "Email is required"), ([] : List String))
      else match findUserByEmail s em with
      | some u => ((200, forgotPasswordMessage), [u.email])
      | none => ((200, forgotPasswordMessage), [])).1
      = (200, forgotPasswordMessage)
    rw [if_neg hem]
    cases findUserByEmail s em <;> rfl
  exact ⟨hgen s1, (hgen s1).trans (hgen s2).symm⟩

/-- Witness for C9: a registered and an unregistered address obtain the
    same response. -/
theorem C9_forgot_password_uniform_witness :
    (forgot_password exStore0 (some "bob@example.com")).1
      = (200, forgotPasswordMessage) ∧
    (forgot_password exStore0 (some "bob@example.com")).1
      = (forgot_password exPubStore (some "bob@example.com")).1 :=
  C9_forgot_password_uniform exStore0 exPubStore "bob@example.com" (by decide)

/-! ## Claim C10 -/

/-- The Conflict branch of `add_collaborator`: a target who already has a
    membership row is rejected with 409, store unchanged. -/
theorem add_collaborator_conflict (s : Store) (cid acting : Nat)
    (em role fresh : String) (c : CategoryRec) (t : UserRec)
    (hc : findCategory s cid = some c) (hem : ¬ em = "")
    (hrole : role = "editor" ∨ role = "reader")
    (hown : is_owner s acting cid = true)
    (hmail : findUserByEmail s em = some t)
    (hdup : isCollaborator s t.id cid = true) :
    add_collaborator s acting cid (some em) role fresh
      = (Except.error ApiError.conflict, s) := by
  unfold add_collaborator
  simp only [hc, hmail]
  rw [if_neg (not_not_intro hown), if_neg hem, if_neg (not_not_intro hrole),
      if_pos hdup]

/-- C10: an owner adding their own email is always rejected with
    Conflict: the `is_owner` gate itself guarantees the acting user has a
    membership row, so the duplicate-membership check fires before any
    role would be assigned. -/
theorem C10_owner_self_add_conflict (s : Store) (cid A : Nat) (u : UserRec)
    (role fresh : String)
    (hcat : (findCategory s cid).isSome = true)
    (hown : is_owner s A cid = true)
    (hmail : findUserByEmail s u.email = some u)
    (hid : u.id = A)
    (hem : ¬ u.email = "")
    (hrole : role = "editor" ∨ role = "reader") :
    add_collaborator s A cid (some u.email) role fresh
      = (Except.error ApiError.conflict, s) := by
  obtain ⟨c, hc⟩ := Option.isSome_iff_exists.mp hcat
  have hdup : isCollaborator s u.id cid = true := by
    obtain ⟨m, hm, hmu, hmc, _, _⟩ := is_owner_row s A cid hown
    exact isCollaborator_of_row s u.id cid m hm (by rw [hmu, hid]) hmc
  exact add_collaborator_conflict s cid A u.email role fresh c u
    hc hem hrole hown hmail hdup

/-- Witness for C10: Alice inviting alice@example.com to her own category
    is a Conflict. -/
theorem C10_owner_self_add_conflict_witness :
    add_collaborator exStore2 1 7 (some "alice@example.com") "editor" "t3"
      = (Except.error ApiError.conflict, exStore2) :=
  C10_owner_self_add_conflict exStore2 7 1
    { id := 1, username := "alice", email := "alice@example.com" }
    "editor" "t3" (by decide) (by decide) (by decide) rfl (by decide)
    (Or.inl rfl)

end BookmarkApi
